import Mathlib

/-!
go-healthcheck: the request-handling cycle of `main.go`.

A shallow embedding of `runBash`, `isHealthy`, `httpResponse` and
`Handler.ServeHTTP`.  Go strings and byte slices are lists of bytes, a Go
`error` is `none` (nil) or `some msg`, and the operating system is a function
from a command line to what `CombinedOutput` hands back.  A run-time panic of
the handler goroutine is the result `none`.
-/

set_option autoImplicit false

namespace Healthcheck

/-! ## Data model -/

/-- Go `string` / `[]byte`: a finite sequence of bytes. -/
abbrev Bytes := List UInt8

/-- An ASCII string constant of the source, as bytes. -/
def str (s : String) : Bytes := s.toList.map fun c => UInt8.ofNat c.toNat

/-- Go `error`: `none` is `nil`, `some m` is an error whose `Error()` is `m`. -/
abbrev GoError := Option Bytes

/-- Go `errors.New`. -/
def errorsNew (text : Bytes) : GoError := some text

/-- What `exec.Command("bash", "-c", command).CombinedOutput()` returns: the
captured combined output and the error (`nil` exactly when the command ran
and exited 0). -/
structure Captured where
  out : Bytes
  err : GoError

/-- The environment: the result of handing a command line to `bash -c`. -/
abbrev Shell := Bytes → Captured

/-- The commands handed to `bash -c` so far, oldest first. -/
abbrev Ran := List Bytes

/-! ## `fmt.Fprintf` with a format string and no operands

Go's `fmt` package (`doPrintf` in `fmt/print.go`), specialised to an empty
operand list: `argNum` stays 0 and `len(a)` is 0. -/

/-- The flag characters `#`, `0`, `+`, `-` and space. -/
def isFlag (c : UInt8) : Bool :=
  c == 35 || c == 48 || c == 43 || c == 45 || c == 32

/-- An ASCII decimal digit. -/
def isDigit (c : UInt8) : Bool := 48 ≤ c.toNat && c.toNat ≤ 57

/-- Go `tooLarge`: the bound on widths, precisions and argument indices. -/
def tooLarge (x : Nat) : Bool := x > 1000000

/-- The loop of Go `parsenum`. -/
def parsenumLoop (s : Bytes) (stop : Nat) : Nat → Nat → Nat → Bool → Nat × Bool × Nat
  | 0, newi, num, isnum => (num, isnum, newi)
  | fuel + 1, newi, num, isnum =>
    if newi < stop && isDigit (s.getD newi 0) then
      if tooLarge num then (0, false, stop)
      else parsenumLoop s stop fuel (newi + 1) (num * 10 + ((s.getD newi 0).toNat - 48)) true
    else (num, isnum, newi)

/-- Go `parsenum(s, start, end)`: `(num, isnum, newi)`. -/
def parsenum (s : Bytes) (start stop : Nat) : Nat × Bool × Nat :=
  if start ≥ stop then (0, false, stop)
  else parsenumLoop s stop (stop - start) start 0 false

/-- Go `parseArgNumber(format)`: `(index, wid, ok)` for a format that starts
with `[`. -/
def parseArgNumber (format : Bytes) : Int × Nat × Bool :=
  if format.length < 3 then (0, 1, false)
  else
    let i := (format.drop 1).findIdx (fun c => c == 93) + 1
    if i < format.length then
      let r := parsenum format 1 i
      if !r.2.1 || r.2.2 != i then (0, i + 1, false)
      else ((r.1 : Int) - 1, i + 1, true)
    else (0, 1, false)

/-- Go `argNumber(argNum, format, i, numArgs)` with `numArgs = 0`:
`(newi, found, goodArgNum)`.  No index is in range, so an index clears
`goodArgNum`. -/
def argNumber (format : Bytes) (i : Nat) (good : Bool) : Nat × Bool × Bool :=
  if format.length ≤ i || format.getD i 0 != 91 then (i, false, good)
  else
    let r := parseArgNumber (format.drop i)
    if r.2.2 && decide (0 ≤ r.1) && decide (r.1 < 0) then (i + r.2.1, true, good)
    else (i + r.2.1, r.2.2, false)

/-- The bytes `writeRune(utf8.RuneError)` appends. -/
def runeError : Bytes := [0xEF, 0xBF, 0xBD]

/-- A UTF-8 continuation byte. -/
def isCont (c : UInt8) : Bool := 0x80 ≤ c.toNat && c.toNat ≤ 0xBF

/-- Go `utf8.DecodeRuneInString` followed by `writeRune`: the bytes that
writing the decoded verb appends, and the number of bytes decoded. -/
def decodeRune (s : Bytes) : Bytes × Nat :=
  match s with
  | [] => (runeError, 0)
  | b0 :: _ =>
    let b := b0.toNat
    if b < 0x80 then ([b0], 1)
    else
      let sz := if 0xC2 ≤ b && b ≤ 0xDF then 2 else if 0xE0 ≤ b && b ≤ 0xEF then 3
        else if 0xF0 ≤ b && b ≤ 0xF4 then 4 else 0
      let lo := if b == 0xE0 then 0xA0 else if b == 0xF0 then 0x90 else 0x80
      let hi := if b == 0xED then 0x9F else if b == 0xF4 then 0x8F else 0xBF
      let s1 := (s.getD 1 0).toNat
      if sz == 0 || s.length < sz then (runeError, 1)
      else if s1 < lo || hi < s1 then (runeError, 1)
      else if sz ≤ 2 then (s.take 2, 2)
      else if !isCont (s.getD 2 0) then (runeError, 1)
      else if sz ≤ 3 then (s.take 3, 3)
      else if !isCont (s.getD 3 0) then (runeError, 1)
      else (s.take 4, 4)

/-- One verb of `doPrintf`: `s` is the format after a `%`; the result is what
is written for the verb and how many bytes of `s` it consumed. -/
def doVerb (s : Bytes) : Bytes × Nat :=
  let stop := s.length
  -- flags
  let i0 := (s.takeWhile isFlag).length
  -- explicit argument index
  let a1 := argNumber s i0 true
  -- width
  let w : Bytes × Nat × Bool × Bool :=
    if a1.1 < stop && s.getD a1.1 0 == 42 then (str "%!(BADWIDTH)", a1.1 + 1, false, a1.2.2)
    else
      let r := parsenum s a1.1 stop
      ([], r.2.2, a1.2.1, a1.2.2 && !(a1.2.1 && r.2.1))
  -- precision
  let p : Bytes × Nat × Bool × Bool :=
    if w.2.1 + 1 < stop && s.getD w.2.1 0 == 46 then
      let a2 := argNumber s (w.2.1 + 1) (w.2.2.2 && !w.2.2.1)
      if a2.1 < stop && s.getD a2.1 0 == 42 then (str "%!(BADPREC)", a2.1 + 1, false, a2.2.2)
      else ([], (parsenum s a2.1 stop).2.2, a2.2.1, a2.2.2)
    else ([], w.2.1, w.2.2.1, w.2.2.2)
  let a3 := if !p.2.2.1 then argNumber s p.2.1 p.2.2.2 else (p.2.1, p.2.2.1, p.2.2.2)
  let i := a3.1
  let good := a3.2.2
  if i ≥ stop then (w.1 ++ p.1 ++ str "%!(NOVERB)", stop)
  else
    let v := decodeRune (s.drop i)
    if s.getD i 0 == 37 then (w.1 ++ p.1 ++ [37], i + v.2)
    else if !good then (w.1 ++ p.1 ++ str "%!" ++ v.1 ++ str "(BADINDEX)", i + v.2)
    else (w.1 ++ p.1 ++ str "%!" ++ v.1 ++ str "(MISSING)", i + v.2)

/-- The format loop of `doPrintf`: `skip` counts the bytes the last verb has
still to consume. -/
def doPrintf : Bytes → Nat → Bytes
  | [], _ => []
  | _ :: rest, skip + 1 => doPrintf rest skip
  | c :: rest, 0 =>
    if c = 37 then (doVerb rest).1 ++ doPrintf rest (doVerb rest).2
    else c :: doPrintf rest 0

/-- The bytes `fmt.Fprintf(w, format)` writes to `w`. -/
def Fprintf (format : Bytes) : Bytes := doPrintf format 0

/-! ## `main.go` -/

/-- The version probe of `ServeHTTP`. -/
def versionCommand : Bytes := str "docker version --format \x27\x7b\x7b.Server.Version\x7d\x7d\x27"

/-- Go `runBash`: runs `command`, then returns `(stdout, e)`; `none` is the
panic of `out[5:]` on fewer than 5 bytes. -/
def runBash (sh : Shell) (command : Bytes) (ran : Ran) : Option (Bytes × GoError) × Ran :=
  let c := sh command
  match c.err with
  | some _ =>
    if 5 ≤ c.out.length then (some (c.out.drop 5, errorsNew c.out), ran ++ [command])
    else (none, ran ++ [command])
  | none => (some (c.out, none), ran ++ [command])

/-- Go `isHealthy`, over `args = os.Args[1:]`. -/
def isHealthy (sh : Shell) : List Bytes → Ran → Option (Bytes × GoError) × Ran
  | [], ran => (some (str "true", none), ran)
  | command :: rest, ran =>
    match runBash sh command ran with
    | (none, ran1) => (none, ran1)
    | (some (out, some e), ran1) => (some (out, some e), ran1)
    | (some (_, none), ran1) => isHealthy sh rest ran1

/-- Go `httpResponse`. -/
def httpResponse (output version : Bytes) (e : GoError) : Bytes :=
  let webout := str "healthy:" ++ output ++ str "\n" ++ str "version:" ++ version ++ str "\n"
  match e with
  | some m => webout ++ str "\nError: " ++ m
  | none => webout

/-- The value of the local `response` in `ServeHTTP`. -/
def response (sh : Shell) (args : List Bytes) (ran : Ran) : Option Bytes × Ran :=
  match isHealthy sh args ran with
  | (none, ran1) => (none, ran1)
  | (some (health0, err0), ran1) =>
    let health := match err0 with
      | some _ => str "false"
      | none => health0
    let err := match err0 with
      | some _ => errorsNew health0
      | none => none
    match runBash sh versionCommand ran1 with
    | (none, ran2) => (none, ran2)
    | (some (version0, err2), ran2) =>
      let version := match err2 with
        | some _ => str "error:" ++ version0
        | none => version0
      (some (httpResponse health version err), ran2)

/-- Go `Handler.ServeHTTP`: the bytes written to the response writer (`none`
when the handler panics before it writes), and the commands run. -/
def ServeHTTP (sh : Shell) (args : List Bytes) (ran : Ran) : Option Bytes × Ran :=
  match response sh args ran with
  | (none, ran1) => (none, ran1)
  | (some resp, ran1) => (some (Fprintf resp), ran1)

/-- The response body of one request. -/
def body (sh : Shell) (args : List Bytes) : Option Bytes := (ServeHTTP sh args []).1

/-! ## Vocabulary of the specification -/

/-- The first line of a body: the bytes before its first newline. -/
def firstLine (b : Bytes) : Bytes := b.takeWhile fun c => c != 10

/-- ASCII white space: tab, newline, vertical tab, form feed, carriage
return and space. -/
def isSpace (c : UInt8) : Bool :=
  c == 9 || c == 10 || c == 11 || c == 12 || c == 13 || c == 32

/-- The specification's "trimmed captured text": leading and trailing white
space removed. -/
def trimmed (s : Bytes) : Bytes :=
  ((s.dropWhile isSpace).reverse.dropWhile isSpace).reverse

/-- The version field of the response, when the version probe returns: the
output of a successful probe, `error:` and the returned output of a failed
one. -/
def versionField (sh : Shell) : Option Bytes :=
  match (sh versionCommand).err with
  | none => some (sh versionCommand).out
  | some _ =>
    if 5 ≤ (sh versionCommand).out.length then
      some (str "error:" ++ (sh versionCommand).out.drop 5)
    else none

/-! ## Environments used as concrete inputs -/

/-- Every command prints `ok` and exits 0, but the version probe exits
non-zero without printing anything. -/
def shVersionSilent : Shell := fun command =>
  if command = versionCommand then ⟨[], some (str "exit status 1")⟩
  else ⟨str "ok\n", none⟩

/-- Every command prints `ok` and exits 0, but the version probe prints the
three bytes `n/a` and exits non-zero. -/
def shVersionShort : Shell := fun command =>
  if command = versionCommand then ⟨str "n/a", some (str "exit status 1")⟩
  else ⟨str "ok\n", none⟩

/-- The command `false` exits 1 without output; every other command, the
version probe included, prints `17.06.0-ce-rc4` and a newline and exits 0. -/
def shFalse : Shell := fun command =>
  if command = str "false" then ⟨[], some (str "exit status 1")⟩
  else ⟨str "17.06.0-ce-rc4\n", none⟩

/-- The command `check` prints `hello world` and exits 1, the command `late`
prints `later failure` and exits 2; every other command prints `1.0` and
exits 0. -/
def shHello : Shell := fun command =>
  if command = str "check" then ⟨str "hello world\n", some (str "exit status 1")⟩
  else if command = str "late" then ⟨str "later failure\n", some (str "exit status 2")⟩
  else ⟨str "1.0\n", none⟩

/-- The command `usage` prints `disk 91% full` and exits 1; every other
command prints `1.0` and exits 0. -/
def shDisk : Shell := fun command =>
  if command = str "usage" then ⟨str "disk 91% full\n", some (str "exit status 1")⟩
  else ⟨str "1.0\n", none⟩

/-- Every command, the version probe included, prints `hello world` between
blanks, then a newline, and exits 1. -/
def shBlanks : Shell := fun _ => ⟨str "  hello world  \n", some (str "exit status 1")⟩

/-- Every command prints `17.06.0-ce-rc4` and a newline and exits 0. -/
def shDocker : Shell := fun _ => ⟨str "17.06.0-ce-rc4\n", none⟩

/-! ## Supporting lemmas -/

theorem doPrintf_append (p rest : Bytes) (hp : (37 : UInt8) ∉ p) :
    doPrintf (p ++ rest) 0 = p ++ doPrintf rest 0 := by
  induction p with
  | nil => rfl
  | cons c t ih =>
    have hc : c ≠ 37 := fun h => hp (by simp [h])
    have ht : (37 : UInt8) ∉ t := fun h => hp (by simp [h])
    simp [doPrintf, hc, ih ht]

theorem Fprintf_append (p rest : Bytes) (hp : (37 : UInt8) ∉ p) :
    Fprintf (p ++ rest) = p ++ Fprintf rest :=
  doPrintf_append p rest hp

theorem Fprintf_verbatim (s : Bytes) (hs : (37 : UInt8) ∉ s) : Fprintf s = s := by
  have h := Fprintf_append s [] hs
  simpa [Fprintf, doPrintf] using h

theorem firstLine_append (a rest : Bytes) (ha : (10 : UInt8) ∉ a) :
    firstLine (a ++ 10 :: rest) = a := by
  induction a with
  | nil => simp [firstLine]
  | cons c t ih =>
    have hc : c ≠ 10 := fun h => ha (by simp [h])
    have ht : (10 : UInt8) ∉ t := fun h => ha (by simp [h])
    have hb : (c != 10) = true := by simp [hc]
    have := ih ht
    simp only [firstLine] at this ⊢
    simp [List.takeWhile, hb, this]

theorem runBash_ok (sh : Shell) (command : Bytes) (ran : Ran)
    (h : (sh command).err = none) :
    runBash sh command ran = (some ((sh command).out, none), ran ++ [command]) := by
  simp [runBash, h]

theorem runBash_fail (sh : Shell) (command e : Bytes) (ran : Ran)
    (h : (sh command).err = some e) (hlen : 5 ≤ (sh command).out.length) :
    runBash sh command ran
      = (some ((sh command).out.drop 5, some (sh command).out), ran ++ [command]) := by
  simp [runBash, h, hlen, errorsNew]

theorem runBash_panic (sh : Shell) (command e : Bytes) (ran : Ran)
    (h : (sh command).err = some e) (hlen : (sh command).out.length < 5) :
    runBash sh command ran = (none, ran ++ [command]) := by
  have : ¬ 5 ≤ (sh command).out.length := by omega
  simp [runBash, h, this]

theorem isHealthy_all_ok (sh : Shell) (args : List Bytes) (ran : Ran)
    (hall : ∀ c ∈ args, (sh c).err = none) :
    isHealthy sh args ran = (some (str "true", none), ran ++ args) := by
  induction args generalizing ran with
  | nil => simp [isHealthy]
  | cons c rest ih =>
    have hc : (sh c).err = none := hall c (by simp)
    have hr : ∀ x ∈ rest, (sh x).err = none := fun x hx => hall x (by simp [hx])
    simp [isHealthy, runBash_ok sh c ran hc, ih _ hr]

theorem isHealthy_first_fail (sh : Shell) (pre post : List Bytes) (c e : Bytes) (ran : Ran)
    (hpre : ∀ x ∈ pre, (sh x).err = none) (hc : (sh c).err = some e) :
    isHealthy sh (pre ++ c :: post) ran
      = (if 5 ≤ (sh c).out.length then some ((sh c).out.drop 5, some (sh c).out) else none,
         ran ++ pre ++ [c]) := by
  induction pre generalizing ran with
  | nil =>
    by_cases hlen : 5 ≤ (sh c).out.length
    · simp [isHealthy, runBash_fail sh c e ran hc hlen, hlen]
    · simp [isHealthy, runBash_panic sh c e ran hc (by omega), hlen]
  | cons x rest ih =>
    have hx : (sh x).err = none := hpre x (by simp)
    have hr : ∀ y ∈ rest, (sh y).err = none := fun y hy => hpre y (by simp [hy])
    simp [isHealthy, runBash_ok sh x ran hx, ih _ hr]

theorem runBash_version (sh : Shell) (ran : Ran) :
    (runBash sh versionCommand ran).2 = ran ++ [versionCommand] ∧
    ((runBash sh versionCommand ran).1.map fun r =>
        match r.2 with
        | some _ => str "error:" ++ r.1
        | none => r.1) = versionField sh := by
  unfold runBash versionField
  cases h : (sh versionCommand).err with
  | none => simp [h]
  | some e =>
    by_cases hlen : 5 ≤ (sh versionCommand).out.length
    · simp [h, hlen, errorsNew]
    · simp [h, hlen]

theorem response_all_ok (sh : Shell) (args : List Bytes) (ran : Ran)
    (hall : ∀ c ∈ args, (sh c).err = none) :
    (response sh args ran).1
      = (versionField sh).map fun v => httpResponse (str "true") v none := by
  have hv := (runBash_version sh (ran ++ args)).2
  unfold response
  rw [isHealthy_all_ok sh args ran hall]
  simp only
  rw [← hv]
  rcases hrb : runBash sh versionCommand (ran ++ args) with ⟨_ | ⟨v, _ | e⟩, r2⟩ <;> simp

theorem response_first_fail (sh : Shell) (pre post : List Bytes) (c e : Bytes) (ran : Ran)
    (hpre : ∀ x ∈ pre, (sh x).err = none) (hc : (sh c).err = some e)
    (hlen : 5 ≤ (sh c).out.length) :
    (response sh (pre ++ c :: post) ran).1
      = (versionField sh).map fun v =>
          httpResponse (str "false") v (some ((sh c).out.drop 5)) := by
  have hv := (runBash_version sh (ran ++ pre ++ [c])).2
  unfold response
  rw [isHealthy_first_fail sh pre post c e ran hpre hc]
  simp only [hlen, if_true]
  rw [← hv]
  rcases hrb : runBash sh versionCommand (ran ++ pre ++ [c]) with ⟨_ | ⟨v, _ | e⟩, r2⟩ <;>
    simp [errorsNew]

theorem response_first_fail_short (sh : Shell) (pre post : List Bytes) (c e : Bytes) (ran : Ran)
    (hpre : ∀ x ∈ pre, (sh x).err = none) (hc : (sh c).err = some e)
    (hlen : (sh c).out.length < 5) :
    (response sh (pre ++ c :: post) ran).1 = none := by
  have hn : ¬ 5 ≤ (sh c).out.length := by omega
  unfold response
  rw [isHealthy_first_fail sh pre post c e ran hpre hc]
  simp [hn]

theorem body_eq (sh : Shell) (args : List Bytes) :
    body sh args = (response sh args []).1.map Fprintf := by
  unfold body ServeHTTP
  rcases h : response sh args [] with ⟨_ | r, ran1⟩ <;> simp

theorem versionField_ok (sh : Shell) (h : (sh versionCommand).err = none) :
    versionField sh = some (sh versionCommand).out := by
  simp [versionField, h]

theorem versionField_fail (sh : Shell) (e : Bytes) (h : (sh versionCommand).err = some e)
    (hlen : 5 ≤ (sh versionCommand).out.length) :
    versionField sh = some (str "error:" ++ (sh versionCommand).out.drop 5) := by
  simp [versionField, h, hlen]

theorem versionField_returns (sh : Shell)
    (hv : (sh versionCommand).err = none ∨ 5 ≤ (sh versionCommand).out.length) :
    ∃ v, versionField sh = some v ∧
      ((37 : UInt8) ∉ (sh versionCommand).out → (37 : UInt8) ∉ v) := by
  cases h : (sh versionCommand).err with
  | none => exact ⟨_, versionField_ok sh h, id⟩
  | some e =>
    have hlen : 5 ≤ (sh versionCommand).out.length := by
      rcases hv with hv | hv
      · simp [h] at hv
      · exact hv
    refine ⟨_, versionField_fail sh e h hlen, fun hp hm => ?_⟩
    rcases List.mem_append.mp hm with hm | hm
    · exact absurd hm (by decide)
    · exact hp (List.mem_of_mem_drop hm)

theorem httpResponse_no_percent (output version : Bytes) (e : GoError)
    (ho : (37 : UInt8) ∉ output) (hv : (37 : UInt8) ∉ version)
    (he : ∀ m, e = some m → (37 : UInt8) ∉ m) :
    (37 : UInt8) ∉ httpResponse output version e := by
  have h1 : (37 : UInt8) ∉ str "healthy:" := by decide
  have h2 : (37 : UInt8) ∉ str "\n" := by decide
  have h3 : (37 : UInt8) ∉ str "version:" := by decide
  have h4 : (37 : UInt8) ∉ str "\nError: " := by decide
  cases e with
  | none => simp [httpResponse, h1, h2, h3, ho, hv]
  | some m => simp [httpResponse, h1, h2, h3, h4, ho, hv, he m rfl]

theorem firstLine_Fprintf_httpResponse (output version : Bytes) (e : GoError)
    (h1 : (37 : UInt8) ∉ output) (h2 : (10 : UInt8) ∉ output) :
    firstLine (Fprintf (httpResponse output version e)) = str "healthy:" ++ output := by
  have hsplit : ∀ tail : Bytes,
      str "healthy:" ++ output ++ str "\n" ++ tail
        = (str "healthy:" ++ output) ++ 10 :: tail := by
    intro tail
    have : str "\n" = [10] := by decide
    simp [this]
  have hp : (37 : UInt8) ∉ str "healthy:" ++ output := by
    have : (37 : UInt8) ∉ str "healthy:" := by decide
    simp [this, h1]
  have hn : (10 : UInt8) ∉ str "healthy:" ++ output := by
    have : (10 : UInt8) ∉ str "healthy:" := by decide
    simp [this, h2]
  have key : ∀ tail : Bytes,
      firstLine (Fprintf (str "healthy:" ++ output ++ str "\n" ++ tail))
        = str "healthy:" ++ output := by
    intro tail
    rw [hsplit, Fprintf_append _ _ hp]
    cases hF : Fprintf (10 :: tail) with
    | nil => simp [Fprintf, doPrintf] at hF
    | cons c t =>
      have hc : c = 10 := by
        simp [Fprintf, doPrintf] at hF
        exact hF.1.symm
      rw [hc]
      exact firstLine_append _ _ hn
  cases e with
  | none =>
    have := key (str "version:" ++ version ++ str "\n")
    simpa [httpResponse, List.append_assoc] using this
  | some m =>
    have := key (str "version:" ++ version ++ str "\n" ++ str "\nError: " ++ m)
    simpa [httpResponse, List.append_assoc] using this

/-- When every configured command exits 0 and the version probe returns
(it succeeds, or fails with at least 5 bytes of output), a body is written
and its first line is `healthy:true`. -/
theorem healthy_true_of_all_ok (sh : Shell) (args : List Bytes)
    (hall : ∀ c ∈ args, (sh c).err = none)
    (hv : (sh versionCommand).err = none ∨ 5 ≤ (sh versionCommand).out.length) :
    ∃ b, body sh args = some b ∧ firstLine b = str "healthy:true" := by
  obtain ⟨v, hvf, _⟩ := versionField_returns sh hv
  refine ⟨Fprintf (httpResponse (str "true") v none), ?_, ?_⟩
  · rw [body_eq, response_all_ok sh args [] hall, hvf]
    rfl
  · rw [firstLine_Fprintf_httpResponse _ _ _ (by decide) (by decide)]
    decide

/-- When some configured command fails, the first one that does has at
least 5 bytes of output and the version probe returns, a body is written and
its first line is `healthy:false`. -/
theorem healthy_false_of_first_fail (sh : Shell) (pre post : List Bytes) (c e : Bytes)
    (hpre : ∀ x ∈ pre, (sh x).err = none) (hc : (sh c).err = some e)
    (hlen : 5 ≤ (sh c).out.length)
    (hv : (sh versionCommand).err = none ∨ 5 ≤ (sh versionCommand).out.length) :
    ∃ b, body sh (pre ++ c :: post) = some b ∧ firstLine b = str "healthy:false" := by
  obtain ⟨v, hvf, _⟩ := versionField_returns sh hv
  refine ⟨Fprintf (httpResponse (str "false") v (some ((sh c).out.drop 5))), ?_, ?_⟩
  · rw [body_eq, response_first_fail sh pre post c e [] hpre hc hlen, hvf]
    rfl
  · rw [firstLine_Fprintf_httpResponse _ _ _ (by decide) (by decide)]
    decide

/-- When some configured command fails and the first one that does has
fewer than 5 bytes of output, the handler panics and writes no body. -/
theorem no_body_of_short_failure (sh : Shell) (pre post : List Bytes) (c e : Bytes)
    (hpre : ∀ x ∈ pre, (sh x).err = none) (hc : (sh c).err = some e)
    (hlen : (sh c).out.length < 5) :
    body sh (pre ++ c :: post) = none := by
  rw [body_eq, response_first_fail_short sh pre post c e [] hpre hc hlen]
  rfl

/-- When every configured command exits 0 and the version probe fails with
at least 5 bytes of `%`-free output, the body is `healthy:true`, the version
line `version:error:` and the output `runBash` returned, and nothing else. -/
theorem version_error_of_all_ok (sh : Shell) (args : List Bytes) (e : Bytes)
    (hall : ∀ c ∈ args, (sh c).err = none)
    (he : (sh versionCommand).err = some e)
    (hlen : 5 ≤ (sh versionCommand).out.length)
    (hp : (37 : UInt8) ∉ (sh versionCommand).out) :
    body sh args
      = some (str "healthy:true\n" ++ str "version:error:"
          ++ (sh versionCommand).out.drop 5 ++ str "\n") := by
  have hvf := versionField_fail sh e he hlen
  obtain ⟨v, hv1, hv2⟩ := versionField_returns sh (Or.inr hlen)
  rw [hvf] at hv1
  have hv : (37 : UInt8) ∉ str "error:" ++ (sh versionCommand).out.drop 5 := by
    rw [Option.some.inj hv1]
    exact hv2 hp
  rw [body_eq, response_all_ok sh args [] hall, hvf]
  simp only [Option.map_some']
  rw [Fprintf_verbatim _ (httpResponse_no_percent _ _ _ (by decide) hv (by simp))]
  have h1 : str "healthy:" ++ str "true" ++ str "\n" = str "healthy:true\n" := by decide
  have h2 : str "version:" ++ str "error:" = str "version:error:" := by decide
  simp only [httpResponse]
  rw [h1, ← h2]
  simp [List.append_assoc]

theorem isHealthy_ran (sh : Shell) (args : List Bytes) (ran : Ran) :
    (isHealthy sh args ran).2
      = ran ++ args.take (args.findIdx (fun c => (sh c).err.isSome) + 1) := by
  induction args generalizing ran with
  | nil => simp [isHealthy]
  | cons c rest ih =>
    cases hc : (sh c).err with
    | none =>
      simp [isHealthy, runBash_ok sh c ran hc, ih, List.findIdx_cons, hc]
    | some e =>
      by_cases hlen : 5 ≤ (sh c).out.length
      · simp [isHealthy, runBash_fail sh c e ran hc hlen, List.findIdx_cons, hc]
      · simp [isHealthy, runBash_panic sh c e ran hc (by omega), List.findIdx_cons, hc]

/-! ## The claims -/

/-- C1 (the code departs from the claim): every configured command exits 0,
yet when the version probe exits non-zero with fewer than 5 bytes of output
the handler panics in `runBash` and writes no body at all, so there is no
first line `healthy:true`. -/
theorem C1_no_body_when_version_probe_fails_silently :
    (∀ c ∈ [str "echo ok"], (shVersionSilent c).err = none) ∧
    body shVersionSilent [str "echo ok"] = none ∧
    body shVersionSilent [] = none := by
  decide

/-- C2 (the code departs from the claim): the single configured command
`false` exits non-zero with empty output; the handler panics in `runBash`
and writes no body, so there is no first line `healthy:false`. -/
theorem C2_no_body_when_probe_fails_silently :
    (shFalse (str "false")).err ≠ none ∧
    (shFalse (str "false")).out = [] ∧
    body shFalse [str "false"] = none := by
  decide

/-- C3, as stated, fails: `check` prints `hello world` and exits 1, and the
body written does not end with a blank line and `Error: hello world`. -/
theorem C3_detail_is_not_whole_output :
    ¬ ∃ b, body shHello [str "check"] = some b ∧
      (str "\n\nError: " ++ (shHello (str "check")).out) <:+ b := by
  have hb : body shHello [str "check"]
      = some (str "healthy:false\nversion:1.0\n\n\nError:  world\n") := by decide
  rintro ⟨b, h1, h2⟩
  rw [hb] at h1
  cases h1
  revert h2
  decide

/-- C3, amended: when some configured command fails, the first failing
command has at least 5 bytes of output, the version probe returns (it
succeeds, or fails with at least 5 bytes of output) and neither output holds
a `%`, the body written ends with a blank line followed by `Error: ` and the
captured output of the first failing command without its first 5 bytes. -/
theorem C3_error_detail_of_first_failure (sh : Shell) (pre post : List Bytes) (c e : Bytes)
    (hpre : ∀ x ∈ pre, (sh x).err = none) (hc : (sh c).err = some e)
    (hlen : 5 ≤ (sh c).out.length)
    (hv : (sh versionCommand).err = none ∨ 5 ≤ (sh versionCommand).out.length)
    (hpc : (37 : UInt8) ∉ (sh c).out) (hpv : (37 : UInt8) ∉ (sh versionCommand).out) :
    ∃ b, body sh (pre ++ c :: post) = some b ∧
      (str "\n\nError: " ++ (sh c).out.drop 5) <:+ b := by
  obtain ⟨v, hvf, hvp⟩ := versionField_returns sh hv
  have hd : (37 : UInt8) ∉ (sh c).out.drop 5 := fun h => hpc (List.mem_of_mem_drop h)
  have hnp : (37 : UInt8) ∉ httpResponse (str "false") v (some ((sh c).out.drop 5)) :=
    httpResponse_no_percent _ _ _ (by decide) (hvp hpv) (by
      intro m hm
      cases hm
      exact hd)
  refine ⟨httpResponse (str "false") v (some ((sh c).out.drop 5)), ?_, ?_⟩
  · rw [body_eq, response_first_fail sh pre post c e [] hpre hc hlen, hvf]
    simp only [Option.map_some']
    rw [Fprintf_verbatim _ hnp]
  · have h1 : str "\n" ++ str "\nError: " = str "\n\nError: " := by decide
    refine ⟨str "healthy:" ++ str "false" ++ str "\n" ++ str "version:" ++ v, ?_⟩
    simp only [httpResponse]
    rw [← h1]
    simp [List.append_assoc]

/-- C3, amended, at a concrete input: `check` prints `hello world` and exits
1 after `true` succeeded and before `late` would fail; the body ends with
`Error:  world`. -/
theorem C3_error_detail_of_first_failure_witness :
    ∃ b, body shHello ([str "true"] ++ str "check" :: [str "late"]) = some b ∧
      (str "\n\nError: " ++ (shHello (str "check")).out.drop 5) <:+ b :=
  C3_error_detail_of_first_failure shHello [str "true"] [str "late"] (str "check")
    (str "exit status 1") (by decide) (by decide) (by decide) (by decide) (by decide)
    (by decide)

/-- C4: the commands `isHealthy` hands to `bash`, in order, are exactly the
configured list cut after its first failing command (the whole list when
none fails): nothing after the first failure runs and nothing runs twice. -/
theorem C4_isHealthy_runs_up_to_first_failure (sh : Shell) (args : List Bytes) :
    (isHealthy sh args []).2
      = args.take (args.findIdx (fun c => (sh c).err.isSome) + 1) := by
  simpa using isHealthy_ran sh args []

/-- C5 (the code departs from the claim): every configured command exits 0
and the version probe prints `n/a` and exits non-zero; the handler panics in
`runBash` and writes no body, so there is neither a first line `healthy:true`
nor a version line `version:error:`. -/
theorem C5_no_body_when_version_output_is_short :
    (∀ c ∈ [str "echo ok", str "true"], (shVersionShort c).err = none) ∧
    (shVersionShort versionCommand).err ≠ none ∧
    (shVersionShort versionCommand).out = str "n/a" ∧
    (runBash shVersionShort versionCommand []).1 = none ∧
    body shVersionShort [str "echo ok", str "true"] = none := by
  decide

/-- C6: `httpResponse h v e` is `healthy:` h, a newline, `version:` v and a
newline when `e` is nil, and that string followed by a newline, `Error: ` and
the error's message when `e` is not nil; the `Error:` block is there exactly
when an error was passed. -/
theorem C6_httpResponse_format (h v : Bytes) (e : GoError) :
    httpResponse h v none = str "healthy:" ++ h ++ str "\n" ++ str "version:" ++ v ++ str "\n" ∧
    (∀ m, httpResponse h v (some m)
      = str "healthy:" ++ h ++ str "\n" ++ str "version:" ++ v ++ str "\n"
          ++ str "\nError: " ++ m) ∧
    ((∃ m, httpResponse h v e
      = str "healthy:" ++ h ++ str "\n" ++ str "version:" ++ v ++ str "\n"
          ++ str "\nError: " ++ m) ↔ e ≠ none) := by
  refine ⟨rfl, fun m => rfl, ?_⟩
  cases e with
  | none =>
    simp only [httpResponse, ne_eq, not_true_eq_false, iff_false, not_exists]
    intro m hm
    have hl := congrArg List.length hm
    have h7 : (str "\nError: ").length = 8 := by decide
    simp only [List.length_append, h7] at hl
    omega
  | some m =>
    simp only [httpResponse, ne_eq, reduceCtorEq, not_false_eq_true, iff_true]
    exact ⟨m, rfl⟩

/-- C7, as stated, fails: a version probe that prints `17.06.0-ce-rc4` and
a newline and exits 0 gets its output back from `runBash` with the newline,
which is not the trimmed text, and the body has a blank line after the
version line. -/
theorem C7_version_output_keeps_its_newline :
    (runBash shDocker versionCommand []).1 = some (str "17.06.0-ce-rc4\n", none) ∧
    trimmed (shDocker versionCommand).out = str "17.06.0-ce-rc4" ∧
    (¬ ∃ e, (runBash shDocker versionCommand []).1
        = some (trimmed (shDocker versionCommand).out, e)) ∧
    body shDocker [] = some (str "healthy:true\nversion:17.06.0-ce-rc4\n\n") := by
  refine ⟨by decide, by decide, ?_, by decide⟩
  have h : (runBash shDocker versionCommand []).1 = some (str "17.06.0-ce-rc4\n", none) := by
    decide
  rintro ⟨e, he⟩
  rw [h] at he
  have ho : str "17.06.0-ce-rc4\n" = trimmed (shDocker versionCommand).out :=
    congrArg Prod.fst (Option.some.inj he)
  revert ho
  decide

/-- C7, amended: whenever `runBash` returns, the output it returns is the
captured combined output as captured, white space included: for every
command that exits 0 it returns all of the output and a nil error, and for
every command that fails with at least 5 bytes of output it returns all but
the first 5 bytes, with the whole output as the error's message.  So when
every configured command and the version probe exit 0 and the version output
`v` holds no `%`, the body is `healthy:true`, a newline, `version:`, `v` and
a newline. -/
theorem C7_runBash_output_is_not_trimmed (sh : Shell) (command : Bytes) (ran : Ran)
    (args : List Bytes) :
    ((sh command).err = none →
      (runBash sh command ran).1 = some ((sh command).out, none)) ∧
    (∀ e, (sh command).err = some e → 5 ≤ (sh command).out.length →
      (runBash sh command ran).1
        = some ((sh command).out.drop 5, some (sh command).out)) ∧
    ((∀ c ∈ args, (sh c).err = none) → (sh versionCommand).err = none →
      (37 : UInt8) ∉ (sh versionCommand).out →
      body sh args
        = some (str "healthy:true\n" ++ str "version:" ++ (sh versionCommand).out
            ++ str "\n")) := by
  refine ⟨fun h => ?_, fun e h hlen => ?_, fun hall hv hp => ?_⟩
  · rw [runBash_ok sh command ran h]
  · rw [runBash_fail sh command e ran h hlen]
  · rw [body_eq, response_all_ok sh args [] hall, versionField_ok sh hv]
    simp only [Option.map_some']
    rw [Fprintf_verbatim _ (httpResponse_no_percent _ _ _ (by decide) hp (by simp))]
    have h1 : str "healthy:" ++ str "true" ++ str "\n" = str "healthy:true\n" := by decide
    simp only [httpResponse]
    rw [h1]

/-- C7, amended, at concrete inputs: `echo ok` exits 0 and its output comes
back whole; `check` prints `  hello world` between blanks and exits 1 while
the version probe fails too, and its output comes back without its first 5
bytes and with its trailing blanks; the version probe prints `17.06.0-ce-rc4`
and a newline, and the body ends with two newlines. -/
theorem C7_runBash_output_is_not_trimmed_witness :
    (runBash shDocker (str "echo ok") []).1 = some (str "17.06.0-ce-rc4\n", none) ∧
    (runBash shBlanks (str "check") []).1
      = some ((shBlanks (str "check")).out.drop 5, some (shBlanks (str "check")).out) ∧
    body shDocker [str "echo ok"]
      = some (str "healthy:true\n" ++ str "version:" ++ str "17.06.0-ce-rc4\n"
          ++ str "\n") :=
  ⟨(C7_runBash_output_is_not_trimmed shDocker (str "echo ok") [] []).1 (by decide),
   (C7_runBash_output_is_not_trimmed shBlanks (str "check") [] []).2.1
      (str "exit status 1") (by decide) (by decide),
   (C7_runBash_output_is_not_trimmed shDocker (str "echo ok") [] [str "echo ok"]).2.2
      (by decide) (by decide) (by decide)⟩

/-- C9 (the code departs from the claim): `false` exits non-zero with empty
output, and `runBash` panics on `out[5:]` instead of returning an output and
an error. -/
theorem C9_runBash_panics_on_short_output :
    (shFalse (str "false")).err = some (str "exit status 1") ∧
    (shFalse (str "false")).out.length < 5 ∧
    (runBash shFalse (str "false") []).1 = none := by
  decide

/-- C10 (the code departs from the claim): `usage` prints `disk 91% full`
and exits 1; `httpResponse` returns a string that ends with `91% full`, and
`Fprintf`, reading that string as a format, writes `91%!f(MISSING)ull`. -/
theorem C10_percent_in_output_is_rewritten :
    (response shDisk [str "usage"] []).1
      = some (str "healthy:false\nversion:1.0\n\n\nError: 91% full\n") ∧
    body shDisk [str "usage"]
      = some (str "healthy:false\nversion:1.0\n\n\nError: 91%!f(MISSING)ull\n") ∧
    body shDisk [str "usage"] ≠ (response shDisk [str "usage"] []).1 := by
  decide

/-- When the rendered response holds no `%`, the bytes written are the
rendered response, byte for byte. -/
theorem body_verbatim_of_no_percent (sh : Shell) (args : List Bytes) (r : Bytes)
    (hr : (response sh args []).1 = some r) (hp : (37 : UInt8) ∉ r) :
    body sh args = some r := by
  rw [body_eq, hr]
  simp only [Option.map_some']
  rw [Fprintf_verbatim r hp]

end Healthcheck
